import Mathlib

/-!
Verification of the transcode-orchestration core of the `compressor_video`
repository against its natural-language specification.

The Python sources are shallowly embedded:

* `src/video_compressor/compressor.py` — class `VideoCompressor`:
  `_prepare_command`, `_get_hw_accel_args`, `_get_software_codec_args`,
  `_get_video_duration`, `_monitor_progress`, `estimate_output_size`,
  `_get_video_bitrate`, `_estimate_using_bitrate`.
* `src/ui/main_window.py` — class `FolderCompressionThread`: the batch
  loop in `run` and the per-job `progress_callback`.

Machine floats are modelled by exact rationals (`ℚ`) or reals (`ℝ`); for
every concrete claim below the float rounding error is orders of magnitude
below the nearest discontinuity of the surrounding `int`/`min`/comparison,
so the exact model is faithful to the float computation. Subprocess
interaction is modelled by explicit data: a probe invocation is described
by its exit status and the parse result of its stdout, and the ffmpeg
progress stream by the list of lines read, each carrying the `time.time()`
value observed when it is handled and the result of the
`out_time_ms=(\d+)` regex search on it.
-/

/-- Python `int(x)` applied to a float: truncation toward zero. Stated with
`Rat.floor` so that concrete runs evaluate inside the kernel. -/
def pyInt (x : ℚ) : ℤ := if 0 ≤ x then x.floor else -(-x).floor

theorem rat_floor_eq_floor (x : ℚ) : x.floor = ⌊x⌋ :=
  (Rat.floor_def' x).trans Rat.floor_def.symm

theorem pyInt_eq_floor {x : ℚ} (h : 0 ≤ x) : pyInt x = ⌊x⌋ :=
  (if_pos h).trans (rat_floor_eq_floor x)

theorem pyInt_mono {x y : ℚ} (hx : 0 ≤ x) (hxy : x ≤ y) : pyInt x ≤ pyInt y := by
  rw [pyInt_eq_floor hx, pyInt_eq_floor (hx.trans hxy)]
  exact Int.floor_le_floor hxy

/-! ## CommandBuilder: `_get_software_codec_args`, `_get_hw_accel_args`,
`_prepare_command` (compressor.py lines 86-142).

The Python code branches on the codec string and raises `ValueError` for an
unsupported codec; the raise is modelled as `Except.error ()`. The float
literal `1.23` is modelled by the exact rational `123/100` (exact for all
quality values 0-51: the fractional part of `crf * 1.23` is a multiple of
1/100, far above the double-precision error). -/

def get_software_codec_args (codec : String) (crf : ℤ) : Except Unit (List String) :=
  if codec = "h264" then
    Except.ok ["-c:v", "libx264", "-preset", "medium", "-crf", toString crf]
  else if codec = "h265" then
    Except.ok ["-c:v", "libx265", "-preset", "medium", "-crf", toString crf]
  else if codec = "vp9" then
    Except.ok ["-c:v", "libvpx-vp9", "-b:v", "0", "-crf",
      toString (min 63 (pyInt ((crf : ℚ) * (123 / 100))))]
  else if codec = "av1" then
    Except.ok ["-c:v", "libaom-av1", "-crf", toString crf, "-b:v", "0",
      "-strict", "experimental"]
  else
    Except.error ()

def get_hw_accel_args (codec : String) (crf : ℤ) (hw : String) : List String :=
  (if hw = "nvidia" then
    if codec = "h264" then ["-c:v", "h264_nvenc", "-preset", "p4", "-tune", "hq"]
    else if codec = "h265" then ["-c:v", "hevc_nvenc", "-preset", "p4", "-tune", "hq"]
    else []
  else if hw = "amd" then
    if codec = "h264" then ["-c:v", "h264_amf", "-quality", "quality"]
    else if codec = "h265" then ["-c:v", "hevc_amf", "-quality", "quality"]
    else []
  else if hw = "intel" then
    if codec = "h264" then ["-c:v", "h264_qsv", "-preset", "slower"]
    else if codec = "h265" then ["-c:v", "hevc_qsv", "-preset", "slower"]
    else []
  else []) ++
  (if codec = "h264" ∨ codec = "h265" then ["-crf", toString crf] else [])

/-- Python truthiness of the `hardware_acceleration : Optional[str]` argument:
`None` and the empty string are falsy. -/
def hw_truthy (hw : Option String) : Bool :=
  match hw with
  | none => false
  | some s => !s.isEmpty

def prepare_command (input output codec : String) (crf : ℤ) (hw : Option String) :
    Except Unit (List String) :=
  let enc : Except Unit (List String) :=
    match hw with
    | some s =>
      if s.isEmpty then get_software_codec_args codec crf
      else Except.ok (get_hw_accel_args codec crf s)
    | none => get_software_codec_args codec crf
  match enc with
  | Except.error e => Except.error e
  | Except.ok args =>
    Except.ok (["ffmpeg", "-i", input, "-thread_queue_size", "4096"] ++ args ++
      ["-c:a", "copy", "-progress", "-", "-nostats", "-y", output])

theorem get_hw_accel_args_vp9 (crf : ℤ) (s : String) :
    get_hw_accel_args ("vp9") crf s = [] := by
  unfold get_hw_accel_args
  by_cases h1 : s = "nvidia"
  · subst h1; rfl
  by_cases h2 : s = "amd"
  · subst h2; rfl
  by_cases h3 : s = "intel"
  · subst h3; rfl
  rw [if_neg h1, if_neg h2, if_neg h3]
  rfl

theorem get_hw_accel_args_av1 (crf : ℤ) (s : String) :
    get_hw_accel_args ("av1") crf s = [] := by
  unfold get_hw_accel_args
  by_cases h1 : s = "nvidia"
  · subst h1; rfl
  by_cases h2 : s = "amd"
  · subst h2; rfl
  by_cases h3 : s = "intel"
  · subst h3; rfl
  rw [if_neg h1, if_neg h2, if_neg h3]
  rfl

/-! ## ProgressMonitor: `_monitor_progress` (compressor.py lines 159-208).

One stream line is modelled by the `time.time()` value observed when the
line is handled together with the result of the regex search
`out_time_ms=(\d+)` on the line (`none` when the line has no marker). The
loop state is `last_progress = -1` and `last_update_time = 0` initially,
`update_interval = 0.5`. Python raises `ZeroDivisionError` when
`total_duration` is exactly `0.0`; this error is not among the per-line
handled classes `(ValueError, IOError, BrokenPipeError)`, so it escapes the
loop and is swallowed by the outer `except Exception`, which skips the
final `progress_callback(100)`. The loop model therefore returns, besides
the emitted `(progress, time)` events, an `aborted` flag. -/

structure StreamLine where
  wallTime : ℚ
  outTimeMs : Option ℕ
deriving DecidableEq

/-- Percent for one matched `out_time_ms` value (compressor.py lines 182-184):
`current_secs = current_ms / 1000000`; `min(100, int(current_secs / total_duration * 100))`. -/
def progress_of_ms (totalDuration : ℚ) (ms : ℕ) : ℤ :=
  min 100 (pyInt ((ms : ℚ) / 1000000 / totalDuration * 100))

def monitor_loop (lastProg : ℤ) (lastUpd : ℚ) (totalDuration : ℚ) :
    List StreamLine → List (ℤ × ℚ) × Bool
  | [] => ([], false)
  | l :: ls =>
    match l.outTimeMs with
    | none => monitor_loop lastProg lastUpd totalDuration ls
    | some ms =>
      if totalDuration = 0 then ([], true)
      else
        let p := progress_of_ms totalDuration ms
        if p ≠ lastProg ∧ (1 : ℚ) / 2 ≤ l.wallTime - lastUpd then
          let r := monitor_loop p l.wallTime totalDuration ls
          ((p, l.wallTime) :: r.1, r.2)
        else
          monitor_loop lastProg lastUpd totalDuration ls

/-- Full monitor run: the percent values passed to `progress_callback`, in
order. After the loop, `progress_callback(100)` fires iff the process
exited with code 0 and no exception escaped the loop. -/
def monitor_progress (lines : List StreamLine) (totalDuration : ℚ) (exitCode : ℤ) :
    List ℤ :=
  if (monitor_loop (-1) 0 totalDuration lines).2 then
    (monitor_loop (-1) 0 totalDuration lines).1.map Prod.fst
  else if exitCode = 0 then
    (monitor_loop (-1) 0 totalDuration lines).1.map Prod.fst ++ [100]
  else
    (monitor_loop (-1) 0 totalDuration lines).1.map Prod.fst

/-- The `out_time_ms` values of the lines that match the regex, in stream order. -/
def matching_ms (lines : List StreamLine) : List ℕ :=
  lines.filterMap StreamLine.outTimeMs

/-! ## MediaProbe: `_get_video_duration`, `_get_video_bitrate`
(compressor.py lines 144-157 and 233-251).

A probe invocation is described by the data the subprocess calls can
produce: whether the duration `ffprobe` exited with status 0 (it is run
with `check=True`, so a nonzero exit raises `CalledProcessError`, modelled
as `Except.error ()`), the result of `float(stdout.strip())` on its output
(`none` when parsing raises `ValueError`), and the result of
`int(stdout.strip())` for the bitrate probe (run without `check`, so only
the parse matters). `present` is `os.path.exists(input_file)` and
`sizeBytes` is `os.path.getsize(input_file)`. -/

structure ProbeEnv where
  present : Bool
  sizeBytes : ℕ
  durationExitOk : Bool
  durationParsed : Option ℚ
  bitrateParsed : Option ℤ
deriving DecidableEq

def get_video_duration (env : ProbeEnv) : Except Unit ℚ :=
  if env.durationExitOk then Except.ok (env.durationParsed.getD 0)
  else Except.error ()

def get_video_bitrate (env : ProbeEnv) : Except Unit ℤ :=
  match env.bitrateParsed with
  | some b => Except.ok b
  | none =>
    match get_video_duration env with
    | Except.error e => Except.error e
    | Except.ok d =>
      if 0 < d then Except.ok (pyInt ((env.sizeBytes : ℚ) * 8 / d))
      else Except.ok 0

/-! ## BatchScheduler: `FolderCompressionThread.run` and its
`progress_callback` (main_window.py lines 84-141).

One batch job is described by its input size in MB and its outcome:
`some outMB` when `compress_video` returns normally and the output file
then has size `outMB` (0 when missing), `none` when `compress_video`
raises. The `except` clause of `run` emits
`compression_finished(False, msg, elapsed, 0, 0)` — the size totals passed
on failure are the literals 0, 0. An empty file list reaches the final
progress emit with the local `overall_percent` unbound, raising
`NameError`, hence also the failure emit. The `self.running` cancellation
flag is not modelled (no `stop()` call during the run). Wall-clock elapsed
time is outside the model; the report keeps the success flag, both size
totals and how many jobs were started. -/

structure BatchJob where
  inputSizeMB : ℚ
  outcome : Option ℚ
deriving DecidableEq

structure BatchReport where
  success : Bool
  totalInputMB : ℚ
  totalOutputMB : ℚ
  jobsStarted : ℕ
deriving DecidableEq

def folder_run_loop (accIn accOut : ℚ) (started : ℕ) :
    List BatchJob → BatchReport
  | [] => ⟨true, accIn, accOut, started⟩
  | j :: js =>
    match j.outcome with
    | none => ⟨false, 0, 0, started + 1⟩
    | some outMB =>
      folder_run_loop (accIn + j.inputSizeMB) (accOut + outMB) (started + 1) js

def folder_run (jobs : List BatchJob) : BatchReport :=
  match jobs with
  | [] => ⟨false, 0, 0, 0⟩
  | _ :: _ => folder_run_loop 0 0 0 jobs

/-- Overall percent computed by the per-job `progress_callback`
(main_window.py line 111):
`int((total_processed + percent / 100) / total_files * 100)`. -/
def overall_percent (totalProcessed : ℕ) (percent : ℤ) (totalFiles : ℕ) : ℤ :=
  pyInt (((totalProcessed : ℚ) + (percent : ℚ) / 100) / (totalFiles : ℚ) * 100)

/-! ## SizeEstimator: `estimate_output_size`, `_estimate_using_bitrate`
(compressor.py lines 210-231 and 253-261).

The float computation `2 ** ((23 - crf) / 6.0)` is modelled exactly over
the reals with `Real.rpow` (necessarily noncomputable: `ℝ` itself is).
The codec lookup `base_compression_ratio.get(codec, 0.35)` is an if-chain
with default 0.35. An exception inside the `try` block of
`estimate_output_size` (the duration probe raising `CalledProcessError`
inside `_get_video_bitrate` or `_get_video_duration`) is caught and falls
through to the ratio heuristic, as does the case where the probed bitrate
or duration is not positive. -/

noncomputable def crf_factor (crf : ℤ) : ℝ :=
  (2 : ℝ) ^ (((23 : ℝ) - (crf : ℝ)) / 6)

noncomputable def base_compression_ratio (codec : String) : ℝ :=
  if codec = "h264" then 0.35
  else if codec = "h265" then 0.25
  else if codec = "vp9" then 0.22
  else if codec = "av1" then 0.18
  else 0.35

noncomputable def estimate_using_bitrate (codec : String) (crf : ℤ)
    (originalBitrate : ℤ) (duration : ℚ) : ℝ :=
  max 0.1 ((originalBitrate : ℝ) * base_compression_ratio codec * crf_factor crf *
    (duration : ℝ) / 8 / (1024 * 1024))

/-- The static-heuristic fallback of `estimate_output_size`
(compressor.py lines 225-231): `input_size_mb` is `getsize / (1024*1024)`
and `compression_ratio = min(1.0, base * crf_factor)`, floored at 0.1 MB. -/
noncomputable def ratio_estimate (env : ProbeEnv) (codec : String) (crf : ℤ) : ℝ :=
  max 0.1 ((env.sizeBytes : ℝ) / (1024 * 1024) *
    min 1 (base_compression_ratio codec * crf_factor crf))

noncomputable def estimate_output_size (env : ProbeEnv) (codec : String) (crf : ℤ) : ℝ :=
  if env.present = false then 0
  else
    match get_video_bitrate env, get_video_duration env with
    | Except.ok b, Except.ok d =>
      if 0 < b ∧ 0 < d then estimate_using_bitrate codec crf b d
      else ratio_estimate env codec crf
    | _, _ => ratio_estimate env codec crf

theorem crf_factor_pos (crf : ℤ) : 0 < crf_factor crf :=
  Real.rpow_pos_of_pos (by norm_num) _

theorem crf_factor_anti {q1 q2 : ℤ} (h : q1 ≤ q2) : crf_factor q2 ≤ crf_factor q1 := by
  unfold crf_factor
  apply (Real.rpow_le_rpow_left_iff (by norm_num : (1 : ℝ) < 2)).mpr
  have : (q1 : ℝ) ≤ (q2 : ℝ) := by exact_mod_cast h
  linarith

theorem base_compression_ratio_pos (codec : String) : 0 < base_compression_ratio codec := by
  unfold base_compression_ratio
  split_ifs <;> norm_num

/-! ## Claims -/

/-- C1: for a progress line `out_time_ms=N` (N ≥ 0) and positive total
duration D, the monitor computes percent
`min(100, floor(N / 1_000_000 / D * 100))` — the value is divided by
1,000,000 (microseconds), not 1,000. -/
theorem c1_progress_formula (ms : ℕ) (D : ℚ) (hD : 0 < D) :
    progress_of_ms D ms = min 100 ⌊(ms : ℚ) / 1000000 / D * 100⌋ := by
  unfold progress_of_ms
  rw [pyInt_eq_floor (by positivity)]

/-- C1 witness: at `out_time_ms=1000000` and duration 2 s the theorem applies. -/
theorem c1_progress_formula_witness :
    progress_of_ms 2 1000000 = min 100 ⌊(1000000 : ℚ) / 1000000 / 2 * 100⌋ :=
  c1_progress_formula 1000000 2 (by norm_num)

/-- C2 counterexample: at quality 3 the built vp9 arguments carry quality
flag "3" (the code truncates `3 * 1.23 = 3.69` with `int`), while the
claimed formula `min(63, round(quality * 1.23))` gives 4. -/
theorem c2_vp9_round_cex :
    get_software_codec_args ("vp9") 3 =
      Except.ok ["-c:v", "libvpx-vp9", "-b:v", "0", "-crf", "3"] ∧
    min 63 (round ((3 : ℚ) * (123 / 100))) = 4 := by
  constructor
  · unfold get_software_codec_args
    rw [if_neg (by decide), if_neg (by decide), if_pos rfl]
    rw [show pyInt (((3 : ℤ) : ℚ) * (123 / 100)) = 3 by
      rw [pyInt_eq_floor (by norm_num)]; norm_num]
    rfl
  · norm_num [round_eq]

/-- C2 amended: for every quality q ≥ 0 the vp9 quality flag is
`min(63, floor(q * 1.23))` (truncation, not rounding); at q = 23 this is
still 28. -/
theorem c2_vp9_flag (q : ℤ) (hq : 0 ≤ q) :
    get_software_codec_args ("vp9") q =
      Except.ok ["-c:v", "libvpx-vp9", "-b:v", "0", "-crf",
        toString (min 63 ⌊(q : ℚ) * (123 / 100)⌋)] ∧
    min 63 ⌊(23 : ℚ) * (123 / 100)⌋ = 28 := by
  constructor
  · unfold get_software_codec_args
    rw [if_neg (by decide), if_neg (by decide), if_pos rfl,
      pyInt_eq_floor (mul_nonneg (by exact_mod_cast hq) (by norm_num))]
  · norm_num

/-- C2 witness: the amended theorem applied at quality 23. -/
theorem c2_vp9_flag_witness :
    get_software_codec_args ("vp9") 23 =
      Except.ok ["-c:v", "libvpx-vp9", "-b:v", "0", "-crf",
        toString (min 63 ⌊(23 : ℚ) * (123 / 100)⌋)] ∧
    min 63 ⌊(23 : ℚ) * (123 / 100)⌋ = 28 :=
  c2_vp9_flag 23 (by norm_num)

/-- C3 counterexample: for codec vp9 with hardware acceleration "nvidia",
`_get_hw_accel_args` contributes no arguments at all, so the built command
contains neither hardware encoder flags nor the software encoder path —
no `-c:v` selection and no `-crf` flag appears, contradicting "always
selects the software encoder path together with its quality flag". -/
theorem c3_hw_fallback_cex :
    prepare_command ("in.mp4") "out.webm" "vp9" 23 (some ("nvidia")) =
      Except.ok ["ffmpeg", "-i", "in.mp4", "-thread_queue_size", "4096",
        "-c:a", "copy", "-progress", "-", "-nostats", "-y", "out.webm"] ∧
    "libvpx-vp9" ∉ ["ffmpeg", "-i", "in.mp4", "-thread_queue_size", "4096",
        "-c:a", "copy", "-progress", "-", "-nostats", "-y", "out.webm"] ∧
    "-crf" ∉ ["ffmpeg", "-i", "in.mp4", "-thread_queue_size", "4096",
        "-c:a", "copy", "-progress", "-", "-nostats", "-y", "out.webm"] := by
  refine ⟨rfl, by decide, by decide⟩

/-- C3 amended: for codec vp9 or av1, hardware-specific encoder flags never
appear; when the hardware choice is falsy (none) the software encoder path
with the rescaled quality flag is selected, but when a hardware
accelerator is requested the command carries no video-encoder or quality
flags at all (the encoder argument list is empty — there is no fallback to
the software path). -/
theorem c3_encoder_selection (input output : String) (crf : ℤ) (hw : Option String) :
    (hw_truthy hw = true →
      prepare_command input output ("vp9") crf hw =
        Except.ok (["ffmpeg", "-i", input, "-thread_queue_size", "4096"] ++
          ["-c:a", "copy", "-progress", "-", "-nostats", "-y", output]) ∧
      prepare_command input output ("av1") crf hw =
        Except.ok (["ffmpeg", "-i", input, "-thread_queue_size", "4096"] ++
          ["-c:a", "copy", "-progress", "-", "-nostats", "-y", output])) ∧
    (hw_truthy hw = false →
      prepare_command input output ("vp9") crf hw =
        Except.ok (["ffmpeg", "-i", input, "-thread_queue_size", "4096"] ++
          ["-c:v", "libvpx-vp9", "-b:v", "0", "-crf",
            toString (min 63 (pyInt ((crf : ℚ) * (123 / 100))))] ++
          ["-c:a", "copy", "-progress", "-", "-nostats", "-y", output]) ∧
      prepare_command input output ("av1") crf hw =
        Except.ok (["ffmpeg", "-i", input, "-thread_queue_size", "4096"] ++
          ["-c:v", "libaom-av1", "-crf", toString crf, "-b:v", "0",
            "-strict", "experimental"] ++
          ["-c:a", "copy", "-progress", "-", "-nostats", "-y", output])) := by
  rcases hw with _ | s
  · constructor
    · intro h
      simp [hw_truthy] at h
    · intro _
      exact ⟨rfl, rfl⟩
  · rcases he : s.isEmpty with _ | _
    · constructor
      · intro _
        constructor
        · simp [prepare_command, he, get_hw_accel_args_vp9]
        · simp [prepare_command, he, get_hw_accel_args_av1]
      · intro h
        simp [hw_truthy, he] at h
    · constructor
      · intro h
        simp [hw_truthy, he] at h
      · intro _
        constructor
        · simp [prepare_command, he]
          rfl
        · simp [prepare_command, he]
          rfl

/-- C3 witness: the amended theorem applied with hardware acceleration
"nvidia" and with no hardware acceleration. -/
theorem c3_encoder_selection_witness :
    ((hw_truthy (some ("nvidia")) = true →
      prepare_command ("a.mp4") "b.webm" "vp9" 23 (some ("nvidia")) =
        Except.ok (["ffmpeg", "-i", "a.mp4", "-thread_queue_size", "4096"] ++
          ["-c:a", "copy", "-progress", "-", "-nostats", "-y", "b.webm"]) ∧
      prepare_command ("a.mp4") "b.webm" "av1" 23 (some ("nvidia")) =
        Except.ok (["ffmpeg", "-i", "a.mp4", "-thread_queue_size", "4096"] ++
          ["-c:a", "copy", "-progress", "-", "-nostats", "-y", "b.webm"])) ∧
    (hw_truthy (some ("nvidia")) = false →
      prepare_command ("a.mp4") "b.webm" "vp9" 23 (some ("nvidia")) =
        Except.ok (["ffmpeg", "-i", "a.mp4", "-thread_queue_size", "4096"] ++
          ["-c:v", "libvpx-vp9", "-b:v", "0", "-crf",
            toString (min 63 (pyInt (((23 : ℤ) : ℚ) * (123 / 100))))] ++
          ["-c:a", "copy", "-progress", "-", "-nostats", "-y", "b.webm"]) ∧
      prepare_command ("a.mp4") "b.webm" "av1" 23 (some ("nvidia")) =
        Except.ok (["ffmpeg", "-i", "a.mp4", "-thread_queue_size", "4096"] ++
          ["-c:v", "libaom-av1", "-crf", toString (23 : ℤ), "-b:v", "0",
            "-strict", "experimental"] ++
          ["-c:a", "copy", "-progress", "-", "-nostats", "-y", "b.webm"]))) :=
  c3_encoder_selection ("a.mp4") "b.webm" 23 (some ("nvidia"))

/-- C6 counterexample: when the duration probe exits 0 but its output is
unparsable, `_get_video_duration` returns 0.0 as a normal (successful)
result — a non-positive successful duration, where the claim demands a
`ProbeError`. -/
theorem c6_unparsable_cex :
    get_video_duration ⟨true, 100, true, none, none⟩ = Except.ok 0 ∧
    ¬ (0 : ℚ) > 0 := ⟨rfl, by norm_num⟩

/-- C6 amended: `_get_video_duration` succeeds exactly when the probe
subprocess exits 0 (a nonzero exit — e.g. a missing file — raises
`CalledProcessError`); on success an unparsable output yields the value
0.0, and any parsed value — positive or not — is returned as is. -/
theorem c6_duration_behaviour (env : ProbeEnv) :
    ((∃ d, get_video_duration env = Except.ok d) ↔ env.durationExitOk = true) ∧
    (env.durationExitOk = true → get_video_duration env =
      Except.ok (env.durationParsed.getD 0)) := by
  unfold get_video_duration
  constructor
  · constructor
    · rintro ⟨d, hd⟩
      by_contra h
      rw [Bool.not_eq_true] at h
      rw [h] at hd
      simp at hd
    · intro h
      rw [h]
      exact ⟨env.durationParsed.getD 0, by simp⟩
  · intro h
    rw [h]
    simp

/-- C6 witness: the amended theorem applied to the probe outcome with a
successful exit and unparsable output. -/
theorem c6_duration_behaviour_witness :
    ((∃ d, get_video_duration ⟨true, 7, true, none, some 5⟩ = Except.ok d) ↔
      (⟨true, 7, true, none, some 5⟩ : ProbeEnv).durationExitOk = true) ∧
    ((⟨true, 7, true, none, some 5⟩ : ProbeEnv).durationExitOk = true →
      get_video_duration ⟨true, 7, true, none, some 5⟩ =
        Except.ok ((⟨true, 7, true, none, some 5⟩ : ProbeEnv).durationParsed.getD 0)) :=
  c6_duration_behaviour ⟨true, 7, true, none, some 5⟩

/-- C8: the overall percent emitted with each in-job progress event equals
`floor((completedCount + currentJobPercent/100) / totalCount * 100)`; with
3 jobs, one completed and the second at 50 percent, it is 50. -/
theorem c8_overall_percent (c : ℕ) (p : ℤ) (t : ℕ) (hp : 0 ≤ p) :
    overall_percent c p t = ⌊((c : ℚ) + (p : ℚ) / 100) / (t : ℚ) * 100⌋ ∧
    overall_percent 1 50 3 = 50 := by
  constructor
  · unfold overall_percent
    have h1 : (0 : ℚ) ≤ (p : ℚ) := by exact_mod_cast hp
    have h2 : (0 : ℚ) ≤ (c : ℚ) + (p : ℚ) / 100 := by positivity
    exact pyInt_eq_floor (mul_nonneg (div_nonneg h2 (Nat.cast_nonneg t)) (by norm_num))
  · unfold overall_percent
    rw [pyInt_eq_floor (by norm_num)]
    norm_num

/-- C8 witness: the theorem applied at one completed job of three with the
current job at 50 percent. -/
theorem c8_overall_percent_witness :
    overall_percent 1 50 3 = ⌊((1 : ℚ) + (50 : ℚ) / 100) / (3 : ℚ) * 100⌋ ∧
    overall_percent 1 50 3 = 50 :=
  c8_overall_percent 1 50 3 (by norm_num)

theorem progress_of_ms_le_100 (D : ℚ) (ms : ℕ) : progress_of_ms D ms ≤ 100 :=
  min_le_left _ _

theorem progress_of_ms_mono {D : ℚ} (hD : 0 < D) {a b : ℕ} (h : a ≤ b) :
    progress_of_ms D a ≤ progress_of_ms D b := by
  unfold progress_of_ms
  refine min_le_min le_rfl (pyInt_mono (by positivity) ?_)
  have : (a : ℚ) ≤ (b : ℚ) := by exact_mod_cast h
  gcongr

theorem monitor_loop_not_aborted {D : ℚ} (hD : D ≠ 0) :
    ∀ (ls : List StreamLine) (lp : ℤ) (lt : ℚ),
    (monitor_loop lp lt D ls).2 = false := by
  intro ls
  induction ls with
  | nil => intro lp lt; rfl
  | cons l ls ih =>
    intro lp lt
    rcases h : l.outTimeMs with _ | ms
    · simp only [monitor_loop, h]
      exact ih lp lt
    · simp only [monitor_loop, h]
      rw [if_neg hD]
      split
      · exact ih _ _
      · exact ih lp lt

theorem monitor_loop_sublist (D : ℚ) :
    ∀ (ls : List StreamLine) (lp : ℤ) (lt : ℚ),
    List.Sublist ((monitor_loop lp lt D ls).1.map Prod.fst)
      ((matching_ms ls).map (progress_of_ms D)) := by
  intro ls
  induction ls with
  | nil =>
    intro lp lt
    simp [monitor_loop, matching_ms]
  | cons l ls ih =>
    intro lp lt
    rcases h : l.outTimeMs with _ | ms
    · rw [show matching_ms (l :: ls) = matching_ms ls from
        List.filterMap_cons_none h]
      simp only [monitor_loop, h]
      exact ih lp lt
    · rw [show matching_ms (l :: ls) = ms :: matching_ms ls from
        List.filterMap_cons_some h]
      simp only [monitor_loop, h]
      by_cases hD : D = 0
      · rw [if_pos hD]
        simp
      · rw [if_neg hD]
        split
        · exact List.Sublist.cons₂ _ (ih _ _)
        · exact List.Sublist.cons _ (ih lp lt)

/-- C4: with strictly increasing `out_time_ms` values, a positive total
duration and exit code 0, the percent values delivered to the callback are
monotonically non-decreasing and the last delivered value is 100 — the
final 100 is emitted unconditionally on a zero exit code. -/
theorem c4_monotone_final (lines : List StreamLine) (D : ℚ) (hD : 0 < D)
    (hinc : List.Chain' (· < ·) (matching_ms lines)) :
    List.Chain' (· ≤ ·) (monitor_progress lines D 0) ∧
    (monitor_progress lines D 0).getLast? = some 100 := by
  have hab := monitor_loop_not_aborted (ne_of_gt hD) lines (-1) 0
  have hsub := monitor_loop_sublist D lines (-1) 0
  have hout : monitor_progress lines D 0 =
      (monitor_loop (-1) 0 D lines).1.map Prod.fst ++ [100] := by
    unfold monitor_progress
    rw [hab]
    norm_num
  have hpw : ((matching_ms lines).map (progress_of_ms D)).Pairwise (· ≤ ·) :=
    (List.chain'_iff_pairwise.mp hinc).map _
      (fun _ _ hab2 => progress_of_ms_mono hD (le_of_lt hab2))
  have hps : ((monitor_loop (-1) 0 D lines).1.map Prod.fst).Pairwise (· ≤ ·) :=
    hpw.sublist hsub
  have hle : ∀ a ∈ (monitor_loop (-1) 0 D lines).1.map Prod.fst, a ≤ 100 := by
    intro a ha
    obtain ⟨ms, _, rfl⟩ := List.mem_map.mp (hsub.subset ha)
    exact progress_of_ms_le_100 D ms
  constructor
  · rw [hout]
    apply List.Pairwise.chain'
    refine List.pairwise_append.mpr ⟨hps, by simp, ?_⟩
    intro a ha b hb
    rw [List.mem_singleton] at hb
    subst hb
    exact hle a ha
  · rw [hout]
    exact List.getLast?_concat _

/-- C4 witness: a two-line stream spanning half then all of a 1-second
duration, exit code 0. -/
theorem c4_monotone_final_witness :
    List.Chain' (· ≤ ·)
      (monitor_progress [⟨1, some 500000⟩, ⟨2, some 1000000⟩] 1 0) ∧
    (monitor_progress [⟨1, some 500000⟩, ⟨2, some 1000000⟩] 1 0).getLast? =
      some 100 :=
  c4_monotone_final [⟨1, some 500000⟩, ⟨2, some 1000000⟩] 1 (by norm_num)
    (by
      rw [show matching_ms [⟨1, some 500000⟩, ⟨2, some 1000000⟩] =
        [500000, 1000000] from rfl]
      simp [List.chain'_cons])

/-- C5 amended: inside the parsing loop, every delivery differs from the
previously delivered percent and comes at least 0.5 seconds of wall-clock
time after it (the chain is anchored at the initial state
`last_progress = -1`, `last_update_time = 0`); the unconditional final
100-on-success delivery is exempt from the rule and may repeat the last
value. -/
theorem c5_loop_throttle (lines : List StreamLine) (D : ℚ) :
    List.Chain (fun a b : ℤ × ℚ => b.1 ≠ a.1 ∧ (1 : ℚ) / 2 ≤ b.2 - a.2)
      ((-1 : ℤ), (0 : ℚ)) (monitor_loop (-1) 0 D lines).1 := by
  suffices h : ∀ (ls : List StreamLine) (lp : ℤ) (lt : ℚ),
      List.Chain (fun a b : ℤ × ℚ => b.1 ≠ a.1 ∧ (1 : ℚ) / 2 ≤ b.2 - a.2)
        (lp, lt) (monitor_loop lp lt D ls).1 from h lines (-1) 0
  intro ls
  induction ls with
  | nil => intro lp lt; exact List.Chain.nil
  | cons l ls ih =>
    intro lp lt
    rcases h : l.outTimeMs with _ | ms
    · simp only [monitor_loop, h]
      exact ih lp lt
    · simp only [monitor_loop, h]
      by_cases hD : D = 0
      · rw [if_pos hD]
        exact List.Chain.nil
      · rw [if_neg hD]
        split
        · rename_i hg
          exact List.Chain.cons ⟨hg.1, hg.2⟩ (ih _ _)
        · exact ih lp lt

/-- C5 counterexample: duration 1 s, lines `out_time_ms=0` at t=10 and
`out_time_ms=1000000` at t=11, exit code 0. The delivered sequence is
[0, 100, 100]: the final 100-on-success delivery equals the previously
delivered value, so it is not true that every delivery differs from the
last one. -/
theorem c5_final_duplicate_cex :
    monitor_progress [⟨10, some 0⟩, ⟨11, some 1000000⟩] 1 0 = [0, 100, 100] ∧
    ¬ List.Chain' (fun a b : ℤ => a ≠ b) [0, 100, 100] := by
  constructor
  · have h1 : progress_of_ms 1 0 = 0 := by
      unfold progress_of_ms
      rw [pyInt_eq_floor (by norm_num)]
      norm_num
    have h2 : progress_of_ms 1 1000000 = 100 := by
      unfold progress_of_ms
      rw [pyInt_eq_floor (by norm_num)]
      norm_num
    have hloop : monitor_loop (-1) 0 1 [⟨10, some 0⟩, ⟨11, some 1000000⟩] =
        ([((0 : ℤ), (10 : ℚ)), ((100 : ℤ), (11 : ℚ))], false) := by
      norm_num [monitor_loop, h1, h2]
    unfold monitor_progress
    rw [hloop]
    norm_num
  · simp [List.chain'_cons]

theorem monitor_loop_zero_abort :
    ∀ (ls : List StreamLine) (lp : ℤ) (lt : ℚ),
    (∃ l ∈ ls, l.outTimeMs ≠ none) → monitor_loop lp lt 0 ls = ([], true) := by
  intro ls
  induction ls with
  | nil =>
    intro lp lt h
    simp at h
  | cons l ls ih =>
    intro lp lt h
    rcases hm : l.outTimeMs with _ | ms
    · simp only [monitor_loop, hm]
      apply ih
      rcases h with ⟨x, hx, hxo⟩
      rcases List.mem_cons.mp hx with rfl | hx2
      · exact absurd hm hxo
      · exact ⟨x, hx2, hxo⟩
    · simp only [monitor_loop, hm]
      simp

/-- C10: when the total duration handed to the monitor is 0 (exactly the
value `_get_video_duration` returns on an unparsable probe output), the
first marker line raises `ZeroDivisionError`, which the per-line handler
`(ValueError, IOError, BrokenPipeError)` does not catch; the outer
catch-all swallows it, so the callback is never invoked — no percent event
and no final 100 — whatever the exit code. -/
theorem c10_zero_duration (lines : List StreamLine) (ec : ℤ)
    (h : ∃ l ∈ lines, l.outTimeMs ≠ none) :
    (∀ env : ProbeEnv, env.durationExitOk = true → env.durationParsed = none →
      get_video_duration env = Except.ok 0) ∧
    monitor_progress lines 0 ec = [] := by
  constructor
  · intro env he hp
    simp [get_video_duration, he, hp]
  · simp only [monitor_progress, monitor_loop_zero_abort lines (-1) 0 h]
    simp

/-- C10 witness: a single marker line with duration 0 and exit code 0. -/
theorem c10_zero_duration_witness :
    (∀ env : ProbeEnv, env.durationExitOk = true → env.durationParsed = none →
      get_video_duration env = Except.ok 0) ∧
    monitor_progress [⟨5, some 3⟩] 0 0 = [] :=
  c10_zero_duration [⟨5, some 3⟩] 0 (by decide)

/-- C9 counterexample: a batch of two jobs where the first succeeds
(input 10 MB, output 5 MB) and the second (input 7 MB) fails. The failure
report carries size totals 0 and 0 — the literals passed by the `except`
clause — not the accumulated totals 17 and 5. -/
theorem c9_zero_totals_cex :
    folder_run [⟨10, some 5⟩, ⟨7, none⟩] = ⟨false, 0, 0, 2⟩ ∧
    (10 + 7 : ℚ) ≠ 0 ∧ (5 : ℚ) ≠ 0 := by
  refine ⟨rfl, by norm_num, by norm_num⟩

theorem folder_run_loop_abort (f : BatchJob) (rest : List BatchJob)
    (hf : f.outcome = none) :
    ∀ (done : List BatchJob), (∀ j ∈ done, j.outcome ≠ none) →
    ∀ (accIn accOut : ℚ) (started : ℕ),
    folder_run_loop accIn accOut started (done ++ f :: rest) =
      ⟨false, 0, 0, started + done.length + 1⟩ := by
  intro done
  induction done with
  | nil =>
    intro _ accIn accOut s
    simp only [List.nil_append, folder_run_loop, hf, List.length_nil]
  | cons j js ih =>
    intro hd accIn accOut s
    obtain ⟨v, hv⟩ :=
      Option.ne_none_iff_exists'.mp (hd j (List.mem_cons_self j js))
    simp only [List.cons_append, folder_run_loop, hv, List.append_eq]
    rw [ih (fun x hx => hd x (List.mem_cons_of_mem j hx)) _ _ (s + 1)]
    have : s + 1 + js.length + 1 = s + (j :: js).length + 1 := by
      simp [List.length_cons]
      omega
    rw [this]

theorem folder_run_nonempty (jobs : List BatchJob) (h : jobs ≠ []) :
    folder_run jobs = folder_run_loop 0 0 0 jobs := by
  cases jobs with
  | nil => exact absurd rfl h
  | cons j js => rfl

/-- C9 amended: a failing job aborts the batch — jobs after it are never
started (`jobsStarted` counts only the completed jobs plus the failing
one) — and the failure report carries the aggregate elapsed time but the
input and output size totals it reports are 0, not the totals accumulated
across the jobs completed so far. -/
theorem c9_batch_abort (done : List BatchJob) (f : BatchJob)
    (rest : List BatchJob) (hdone : ∀ j ∈ done, j.outcome ≠ none)
    (hf : f.outcome = none) :
    folder_run (done ++ f :: rest) = ⟨false, 0, 0, done.length + 1⟩ := by
  rw [folder_run_nonempty _ (by simp),
    folder_run_loop_abort f rest hf done hdone 0 0 0]
  simp

/-- C9 witness: the amended theorem applied to a three-job batch whose
second job fails. -/
theorem c9_batch_abort_witness :
    folder_run ([⟨10, some 5⟩] ++ (⟨7, none⟩ : BatchJob) :: [⟨3, some 1⟩]) =
      ⟨false, 0, 0, ([⟨10, some 5⟩] : List BatchJob).length + 1⟩ :=
  c9_batch_abort [⟨10, some 5⟩] ⟨7, none⟩ [⟨3, some 1⟩]
    (by
      intro j hj
      rw [List.mem_singleton] at hj
      subst hj
      simp)
    rfl

theorem ratio_estimate_lower (env : ProbeEnv) (codec : String) (crf : ℤ) :
    (0.1 : ℝ) ≤ ratio_estimate env codec crf :=
  le_max_left _ _

theorem estimate_using_bitrate_lower (codec : String) (crf : ℤ) (b : ℤ) (d : ℚ) :
    (0.1 : ℝ) ≤ estimate_using_bitrate codec crf b d :=
  le_max_left _ _

theorem estimate_output_size_lower (env : ProbeEnv) (codec : String) (q : ℤ)
    (h : env.present = true) : (0.1 : ℝ) ≤ estimate_output_size env codec q := by
  unfold estimate_output_size
  rw [h, if_neg (by simp : ¬(true = false))]
  cases hbit : get_video_bitrate env with
  | error e => exact ratio_estimate_lower env codec q
  | ok b =>
    cases hdur : get_video_duration env with
    | error e => exact ratio_estimate_lower env codec q
    | ok d =>
      dsimp only
      split_ifs with hcond
      · exact estimate_using_bitrate_lower codec q b d
      · exact ratio_estimate_lower env codec q

theorem ratio_estimate_anti (env : ProbeEnv) (codec : String) {q1 q2 : ℤ}
    (hq : q1 ≤ q2) : ratio_estimate env codec q2 ≤ ratio_estimate env codec q1 := by
  unfold ratio_estimate
  refine max_le_max le_rfl (mul_le_mul_of_nonneg_left ?_ (by positivity))
  exact min_le_min le_rfl
    (mul_le_mul_of_nonneg_left (crf_factor_anti hq) (base_compression_ratio_pos codec).le)

theorem estimate_using_bitrate_anti (codec : String) {q1 q2 : ℤ} (hq : q1 ≤ q2)
    (b : ℤ) (d : ℚ) (hb : 0 < b) (hd : 0 < d) :
    estimate_using_bitrate codec q2 b d ≤ estimate_using_bitrate codec q1 b d := by
  unfold estimate_using_bitrate
  refine max_le_max le_rfl ?_
  have h1 : (0 : ℝ) ≤ (b : ℝ) := by exact_mod_cast hb.le
  have h2 : (0 : ℚ) ≤ d := hd.le
  have h3 : (0 : ℝ) ≤ ((d : ℚ) : ℝ) := by exact_mod_cast h2
  have h4 := (base_compression_ratio_pos codec).le
  have h5 := crf_factor_anti hq
  gcongr

/-- C7: for an existing input file the size estimator is at least 0.1 MB on
both the bitrate-based path and the ratio-based fallback path, it returns 0
exactly when the input file does not exist, and it is monotonically
non-increasing in quality for fixed codec and probe data. (The model is a
total function, matching "never raises": every probe failure is caught and
routed to the fallback.) -/
theorem c7_estimator (env : ProbeEnv) (codec : String) (q1 q2 : ℤ)
    (hq : q1 ≤ q2) :
    (env.present = true →
      (0.1 : ℝ) ≤ estimate_output_size env codec q2 ∧
      estimate_output_size env codec q2 ≤ estimate_output_size env codec q1) ∧
    (estimate_output_size env codec q1 = 0 ↔ env.present = false) := by
  constructor
  · intro h
    refine ⟨estimate_output_size_lower env codec q2 h, ?_⟩
    unfold estimate_output_size
    rw [h, if_neg (by simp : ¬(true = false)), if_neg (by simp : ¬(true = false))]
    cases hbit : get_video_bitrate env with
    | error e => exact ratio_estimate_anti env codec hq
    | ok b =>
      cases hdur : get_video_duration env with
      | error e => exact ratio_estimate_anti env codec hq
      | ok d =>
        dsimp only
        split_ifs with hcond
        · exact estimate_using_bitrate_anti codec hq b d hcond.1 hcond.2
        · exact ratio_estimate_anti env codec hq
  · constructor
    · intro h0
      by_contra hp
      rw [Bool.not_eq_false] at hp
      have hlow := estimate_output_size_lower env codec q1 hp
      rw [h0] at hlow
      norm_num at hlow
    · intro hp
      unfold estimate_output_size
      rw [hp, if_pos rfl]

/-- C7 witness: the theorem applied at a 1 MiB input with probed bitrate
5000 bps and duration 10 s, codec h264, qualities 12 ≤ 34. -/
theorem c7_estimator_witness :
    ((⟨true, 1048576, true, some 10, some 5000⟩ : ProbeEnv).present = true →
      (0.1 : ℝ) ≤ estimate_output_size ⟨true, 1048576, true, some 10, some 5000⟩ "h264" 34 ∧
      estimate_output_size ⟨true, 1048576, true, some 10, some 5000⟩ "h264" 34 ≤
        estimate_output_size ⟨true, 1048576, true, some 10, some 5000⟩ "h264" 12) ∧
    (estimate_output_size ⟨true, 1048576, true, some 10, some 5000⟩ "h264" 12 = 0 ↔
      (⟨true, 1048576, true, some 10, some 5000⟩ : ProbeEnv).present = false) :=
  c7_estimator ⟨true, 1048576, true, some 10, some 5000⟩ "h264" 12 34 (by norm_num)

